/-
  Verification of the gathertool request context (src/context.go) against its
  specification.

  The retry state machine `Context.Do`, the streaming-download variant
  `Context.Upload` and the cookie pool `cookiePool.Get` are shallowly embedded
  as pure Lean functions.  Stateful aspects are made explicit:

  * the HTTP client is an oracle `net : Nat → AttemptResult` giving the result
    of the k-th network call of the chain (a timeout error, another transport
    error, or a response with a status code and the result of reading its body);
  * hook fields (`StartFunc`, `SucceedFunc`, `FailedFunc`, `RetryFunc`,
    `EndFunc`) are modelled by whether they are bound (`nil` vs non-`nil`);
    hook invocations are recorded in an event trace together with network
    attempts and the log statements of the source;
  * Go `panic` is a distinguished outcome constructor;
  * the response-time field `Ms` and the `defer Body.Close()` statement carry
    no claim-relevant state and are elided.

  The status-code table `StatusCodeMap` is referenced by `Do` but its
  definition is not part of the sources under verification, so `Do` is
  parameterised by a classifier `cls : Nat → Option Category`; a concrete
  instance modelled from the spec is provided for concrete runs.
-/
import Mathlib

namespace Gathertool

/-- Kind of transport error stored in `Context.Err`. -/
inductive ErrKind : Type where
  | timeout    -- error text contains "(Client.Timeout exceeded while awaiting headers)"
  | other      -- any other non-nil transport error (DNS, connect, TLS, ...)
  | createFail -- `os.Create` failure in `Upload`
deriving DecidableEq, Repr

/-- Result of one `c.Client.Do(c.Req)` call.  For a received response, `body`
is the result of `ioutil.ReadAll` on its body (`none` models a read error);
the chunked view of the same body used by `Upload` is a separate oracle. -/
inductive AttemptResult : Type where
  | timeout                                   -- `c.Err` non-nil, timeout text
  | err                                       -- `c.Err` non-nil, other error
  | ok (status : Nat) (body : Option (List Nat))  -- response received
deriving DecidableEq, Repr

/-- Outcome categories of the status-code table.  Modelled from the spec: the
table maps an HTTP status code to one of five categories; the failure
category (spelled `fail` in the spec) is the `"file"` case of the source's
switch statement, the one that invokes `FailedFunc`. -/
inductive Category : Type where
  | success
  | retry
  | file   -- the failure category
  | startC -- the source's "start" case (log and stop)
  | endC   -- the source's "end" case (log and stop)
deriving DecidableEq, Repr

/-- Observable events of one call chain, in order: hook invocations, network
attempts, and the log statements of the source. -/
inductive Event : Type where
  | startEv        -- StartFunc invoked
  | endEv          -- EndFunc invoked
  | succeedEv      -- SucceedFunc invoked
  | failEv         -- FailedFunc invoked
  | retryEv        -- RetryFunc invoked
  | netAttempt     -- one `c.Client.Do(c.Req)` network call
  | logBudget      -- log "请求失败操过 MaxTimes 次了"
  | logErr         -- log "err = ..."
  | logRetryStatus -- log "第 times 请求失败,状态码 ..."
  | logBodyErr     -- log of the body-read error in the success case
  | logStartCase   -- log "执行 start 事件"
  | logEndCase     -- log "执行 end 事件"
  | logNil         -- log "空对象" (nil receiver)
deriving DecidableEq, Repr

/-- The request context (`type Context struct`), restricted to the fields the
claims are about.  Hook fields record whether the corresponding function
pointer is non-nil.  `Resp` holds the status code of the last received
response, `RespBody` the bytes stored by the success case. -/
structure Ctx : Type where
  times : Nat
  MaxTimes : Nat
  StartFunc : Bool
  SucceedFunc : Bool
  FailedFunc : Bool
  RetryFunc : Bool
  EndFunc : Bool
  Resp : Option Nat := none
  Err : Option ErrKind := none
  RespBody : List Nat := []
deriving DecidableEq, Repr

/-- Events emitted at the top of `Do`: `if c.times == 0 && c.StartFunc != nil`. -/
def startEvs (c : Ctx) : List Event :=
  if c.times = 0 ∧ c.StartFunc = true then [Event.startEv] else []

/-- Events emitted at the top of `Do`: `if c.times == c.MaxTimes && c.EndFunc != nil`. -/
def endEvs (c : Ctx) : List Event :=
  if c.times = c.MaxTimes ∧ c.EndFunc = true then [Event.endEv] else []

/-- `c.times++`. -/
def incTimes (c : Ctx) : Ctx := { c with times := c.times + 1 }

/-- Context after a network call that returned a timeout error. -/
def setTimeoutErr (c : Ctx) : Ctx := { c with Err := some ErrKind.timeout, Resp := none }

/-- Context after a network call that returned another transport error. -/
def setOtherErr (c : Ctx) : Ctx := { c with Err := some ErrKind.other, Resp := none }

/-- Context after a network call that received a response with status `s`. -/
def setResp (s : Nat) (c : Ctx) : Ctx := { c with Err := none, Resp := some s }

/-- Context after the success case stored the body: `c.RespBody = body`. -/
def setBody (bs : List Nat) (c : Ctx) : Ctx := { c with RespBody := bs }

@[simp] theorem incTimes_times (c : Ctx) : (incTimes c).times = c.times + 1 := rfl
@[simp] theorem incTimes_MaxTimes (c : Ctx) : (incTimes c).MaxTimes = c.MaxTimes := rfl
@[simp] theorem incTimes_RetryFunc (c : Ctx) : (incTimes c).RetryFunc = c.RetryFunc := rfl
@[simp] theorem incTimes_FailedFunc (c : Ctx) : (incTimes c).FailedFunc = c.FailedFunc := rfl
@[simp] theorem incTimes_SucceedFunc (c : Ctx) : (incTimes c).SucceedFunc = c.SucceedFunc := rfl
@[simp] theorem setTimeoutErr_times (c : Ctx) : (setTimeoutErr c).times = c.times := rfl
@[simp] theorem setTimeoutErr_MaxTimes (c : Ctx) : (setTimeoutErr c).MaxTimes = c.MaxTimes := rfl
@[simp] theorem setTimeoutErr_RetryFunc (c : Ctx) : (setTimeoutErr c).RetryFunc = c.RetryFunc := rfl
@[simp] theorem setResp_times (s : Nat) (c : Ctx) : (setResp s c).times = c.times := rfl
@[simp] theorem setResp_MaxTimes (s : Nat) (c : Ctx) : (setResp s c).MaxTimes = c.MaxTimes := rfl
@[simp] theorem setResp_RetryFunc (s : Nat) (c : Ctx) : (setResp s c).RetryFunc = c.RetryFunc := rfl
@[simp] theorem setResp_FailedFunc (s : Nat) (c : Ctx) : (setResp s c).FailedFunc = c.FailedFunc := rfl
@[simp] theorem setResp_SucceedFunc (s : Nat) (c : Ctx) : (setResp s c).SucceedFunc = c.SucceedFunc := rfl
@[simp] theorem incTimes_StartFunc (c : Ctx) : (incTimes c).StartFunc = c.StartFunc := rfl
@[simp] theorem incTimes_EndFunc (c : Ctx) : (incTimes c).EndFunc = c.EndFunc := rfl
@[simp] theorem setResp_StartFunc (s : Nat) (c : Ctx) : (setResp s c).StartFunc = c.StartFunc := rfl
@[simp] theorem setResp_EndFunc (s : Nat) (c : Ctx) : (setResp s c).EndFunc = c.EndFunc := rfl

/-- `func (c *Context) Do() func()` (src/context.go lines 122-227), embedded
over the network oracle `net` and the classifier `cls`; `n` is the position in
the oracle stream of the next network call.  Returns the event trace of the
whole retry chain, the final context, and the next stream position (so
`result.2.2 - n` is the number of network attempts performed).  The nil-receiver
guard of the source lives in `doEntry`. -/
def Do (cls : Nat → Option Category) (net : Nat → AttemptResult) (c : Ctx) (n : Nat) :
    List Event × Ctx × Nat :=
  -- 重试验证: c.times++ ; if c.times > c.MaxTimes { log; return nil }
  if h : (incTimes c).MaxTimes < (incTimes c).times then
    (startEvs c ++ endEvs c ++ [Event.logBudget], incTimes c, n)
  else
    -- 执行请求: c.Resp, c.Err = c.Client.Do(c.Req)
    match net n with
    | AttemptResult.timeout =>
      -- 是否超时: if RetryFunc != nil { RetryFunc(c); return c.Do() } ; return nil
      if (setTimeoutErr (incTimes c)).RetryFunc = true then
        let r := Do cls net (setTimeoutErr (incTimes c)) (n + 1)
        (startEvs c ++ endEvs c ++ [Event.netAttempt, Event.retryEv] ++ r.1, r.2.1, r.2.2)
      else
        (startEvs c ++ endEvs c ++ [Event.netAttempt], setTimeoutErr (incTimes c), n + 1)
    | AttemptResult.err =>
      -- 其他错误: log; if FailedFunc != nil { FailedFunc(c) } ; return nil
      (startEvs c ++ endEvs c ++ [Event.netAttempt, Event.logErr] ++
        (if (setOtherErr (incTimes c)).FailedFunc = true then [Event.failEv] else []),
        setOtherErr (incTimes c), n + 1)
    | AttemptResult.ok s body =>
      -- 根据状态码配置的事件类型进行该事件的方法
      match cls s with
      | some Category.success =>
        -- body, err := ioutil.ReadAll(c.Resp.Body)
        match body with
        | none => (startEvs c ++ endEvs c ++ [Event.netAttempt, Event.logBodyErr],
            setResp s (incTimes c), n + 1)
        | some bs =>
          (startEvs c ++ endEvs c ++ [Event.netAttempt] ++
            (if (setBody bs (setResp s (incTimes c))).SucceedFunc = true
              then [Event.succeedEv] else []),
            setBody bs (setResp s (incTimes c)), n + 1)
      | some Category.retry =>
        let r := Do cls net (setResp s (incTimes c)) (n + 1)
        (startEvs c ++ endEvs c ++ [Event.netAttempt, Event.logRetryStatus] ++
          (if (setResp s (incTimes c)).RetryFunc = true then [Event.retryEv] else []) ++ r.1,
          r.2.1, r.2.2)
      | some Category.file =>
        (startEvs c ++ endEvs c ++ [Event.netAttempt] ++
          (if (setResp s (incTimes c)).FailedFunc = true then [Event.failEv] else []),
          setResp s (incTimes c), n + 1)
      | some Category.startC => (startEvs c ++ endEvs c ++ [Event.netAttempt, Event.logStartCase],
          setResp s (incTimes c), n + 1)
      | some Category.endC => (startEvs c ++ endEvs c ++ [Event.netAttempt, Event.logEndCase],
          setResp s (incTimes c), n + 1)
      | none => (startEvs c ++ endEvs c ++ [Event.netAttempt], setResp s (incTimes c), n + 1)
termination_by c.MaxTimes + 1 - c.times
decreasing_by
  all_goals simp_all [incTimes, setTimeoutErr, setResp]
  all_goals omega

/-- The nil-receiver guard of `Do`: `if c == nil { log.Println("空对象"); return nil }`. -/
def doEntry (cls : Nat → Option Category) (net : Nat → AttemptResult)
    (c : Option Ctx) (n : Nat) : List Event × Option Ctx × Nat :=
  match c with
  | none => ([Event.logNil], none, n)
  | some c =>
    let r := Do cls net c n
    (r.1, some r.2.1, r.2.2)

/-- `Modelled from the spec:` the status-code table `StatusCodeMap` referenced
by `Do` is not among the sources under verification; the spec describes it as
a fixed, user-extensible mapping `\x7b200: success, 3xx/401/403/429/5xx-class
codes: retry or fail as configured\x7d`, codes absent from the mapping being
unclassified.  One concrete configuration faithful to those words, used for
concrete runs; the theorems about `Do` hold for every classifier. -/
def StatusCodeMap : Nat → Option Category
  | 200 => some Category.success
  | 301 => some Category.retry
  | 401 => some Category.retry
  | 403 => some Category.retry
  | 404 => some Category.file
  | 429 => some Category.retry
  | 500 => some Category.retry
  | 502 => some Category.retry
  | _ => none

/-- Number of network attempts (`netAttempt` events) in a trace. -/
def netCount : List Event → Nat
  | [] => 0
  | Event.netAttempt :: t => netCount t + 1
  | _ :: t => netCount t

/-- Number of network attempts occurring strictly after the first `endEv`. -/
def netAfterEnd : List Event → Nat
  | [] => 0
  | Event.endEv :: t => netCount t
  | _ :: t => netAfterEnd t

theorem netCount_append (l₁ l₂ : List Event) :
    netCount (l₁ ++ l₂) = netCount l₁ + netCount l₂ := by
  induction l₁ with
  | nil => simp [netCount]
  | cons e t ih => cases e <;> simp [netCount, ih] <;> omega

@[simp] theorem netCount_startEvs (c : Ctx) : netCount (startEvs c) = 0 := by
  unfold startEvs; split <;> simp [netCount]

@[simp] theorem netCount_endEvs (c : Ctx) : netCount (endEvs c) = 0 := by
  unfold endEvs; split <;> simp [netCount]

theorem endEvs_of_lt {c : Ctx} (h : c.times < c.MaxTimes) : endEvs c = [] := by
  unfold endEvs
  rw [if_neg]
  rintro ⟨h1, -⟩
  omega

/-- Step lemma: budget-exceeded entry (`c.times++` makes `c.times > c.MaxTimes`). -/
theorem Do_budget (cls : Nat → Option Category) (net : Nat → AttemptResult)
    {c : Ctx} (n : Nat) (h : c.MaxTimes ≤ c.times) :
    Do cls net c n = (startEvs c ++ endEvs c ++ [Event.logBudget], incTimes c, n) := by
  rw [Do]
  rw [dif_pos]
  simp
  omega

/-- Step lemma: timeout error with a bound `RetryFunc` recurses. -/
theorem Do_timeout_retry (cls : Nat → Option Category) (net : Nat → AttemptResult)
    {c : Ctx} (n : Nat) (h : c.times < c.MaxTimes)
    (hnet : net n = AttemptResult.timeout) (hr : c.RetryFunc = true) :
    Do cls net c n =
      (startEvs c ++ [Event.netAttempt, Event.retryEv] ++
        (Do cls net (setTimeoutErr (incTimes c)) (n + 1)).1,
       (Do cls net (setTimeoutErr (incTimes c)) (n + 1)).2.1,
       (Do cls net (setTimeoutErr (incTimes c)) (n + 1)).2.2) := by
  rw [Do]
  rw [dif_neg (by simp; omega)]
  simp [hnet, hr, endEvs_of_lt h]

/-- Step lemma: timeout error with no `RetryFunc` stops (no recursion). -/
theorem Do_timeout_stop (cls : Nat → Option Category) (net : Nat → AttemptResult)
    {c : Ctx} (n : Nat) (h : c.times < c.MaxTimes)
    (hnet : net n = AttemptResult.timeout) (hr : c.RetryFunc = false) :
    Do cls net c n =
      (startEvs c ++ [Event.netAttempt], setTimeoutErr (incTimes c), n + 1) := by
  rw [Do]
  rw [dif_neg (by simp; omega)]
  simp [hnet, hr, endEvs_of_lt h]

/-- Step lemma: non-timeout transport error is terminal. -/
theorem Do_err (cls : Nat → Option Category) (net : Nat → AttemptResult)
    {c : Ctx} (n : Nat) (h : c.times < c.MaxTimes)
    (hnet : net n = AttemptResult.err) :
    Do cls net c n =
      (startEvs c ++ [Event.netAttempt, Event.logErr] ++
        (if c.FailedFunc = true then [Event.failEv] else []),
       setOtherErr (incTimes c), n + 1) := by
  rw [Do]
  rw [dif_neg (by simp; omega)]
  simp [hnet, endEvs_of_lt h, setOtherErr, incTimes]

/-- Step lemma: response classified `success`, body read succeeds. -/
theorem Do_success (cls : Nat → Option Category) (net : Nat → AttemptResult)
    {c : Ctx} (n : Nat) {s : Nat} {bs : List Nat} (h : c.times < c.MaxTimes)
    (hnet : net n = AttemptResult.ok s (some bs)) (hcls : cls s = some Category.success) :
    Do cls net c n =
      (startEvs c ++ [Event.netAttempt] ++
        (if c.SucceedFunc = true then [Event.succeedEv] else []),
       setBody bs (setResp s (incTimes c)), n + 1) := by
  rw [Do]
  rw [dif_neg (by simp; omega)]
  simp [hnet, hcls, endEvs_of_lt h, setBody, setResp, incTimes]

/-- Step lemma: response classified `success`, body read fails. -/
theorem Do_success_bodyErr (cls : Nat → Option Category) (net : Nat → AttemptResult)
    {c : Ctx} (n : Nat) {s : Nat} (h : c.times < c.MaxTimes)
    (hnet : net n = AttemptResult.ok s none) (hcls : cls s = some Category.success) :
    Do cls net c n =
      (startEvs c ++ [Event.netAttempt, Event.logBodyErr], setResp s (incTimes c), n + 1) := by
  rw [Do]
  rw [dif_neg (by simp; omega)]
  simp [hnet, hcls, endEvs_of_lt h]

/-- Step lemma: response classified `retry` recurses (whether or not a
`RetryFunc` is bound). -/
theorem Do_retryStatus (cls : Nat → Option Category) (net : Nat → AttemptResult)
    {c : Ctx} (n : Nat) {s : Nat} {body : Option (List Nat)} (h : c.times < c.MaxTimes)
    (hnet : net n = AttemptResult.ok s body) (hcls : cls s = some Category.retry) :
    Do cls net c n =
      (startEvs c ++ [Event.netAttempt, Event.logRetryStatus] ++
        (if c.RetryFunc = true then [Event.retryEv] else []) ++
        (Do cls net (setResp s (incTimes c)) (n + 1)).1,
       (Do cls net (setResp s (incTimes c)) (n + 1)).2.1,
       (Do cls net (setResp s (incTimes c)) (n + 1)).2.2) := by
  rw [Do]
  rw [dif_neg (by simp; omega)]
  simp [hnet, hcls, endEvs_of_lt h, setResp, incTimes]

/-- Step lemma: response classified into the failure category (the source's
`"file"` case) invokes `FailedFunc` when bound and stops. -/
theorem Do_file (cls : Nat → Option Category) (net : Nat → AttemptResult)
    {c : Ctx} (n : Nat) {s : Nat} {body : Option (List Nat)} (h : c.times < c.MaxTimes)
    (hnet : net n = AttemptResult.ok s body) (hcls : cls s = some Category.file) :
    Do cls net c n =
      (startEvs c ++ [Event.netAttempt] ++
        (if c.FailedFunc = true then [Event.failEv] else []),
       setResp s (incTimes c), n + 1) := by
  rw [Do]
  rw [dif_neg (by simp; omega)]
  simp [hnet, hcls, endEvs_of_lt h, setResp, incTimes]

/-- Step lemma: response classified `"start"` logs and stops. -/
theorem Do_startCase (cls : Nat → Option Category) (net : Nat → AttemptResult)
    {c : Ctx} (n : Nat) {s : Nat} {body : Option (List Nat)} (h : c.times < c.MaxTimes)
    (hnet : net n = AttemptResult.ok s body) (hcls : cls s = some Category.startC) :
    Do cls net c n =
      (startEvs c ++ [Event.netAttempt, Event.logStartCase], setResp s (incTimes c), n + 1) := by
  rw [Do]
  rw [dif_neg (by simp; omega)]
  simp [hnet, hcls, endEvs_of_lt h]

/-- Step lemma: response classified `"end"` logs and stops. -/
theorem Do_endCase (cls : Nat → Option Category) (net : Nat → AttemptResult)
    {c : Ctx} (n : Nat) {s : Nat} {body : Option (List Nat)} (h : c.times < c.MaxTimes)
    (hnet : net n = AttemptResult.ok s body) (hcls : cls s = some Category.endC) :
    Do cls net c n =
      (startEvs c ++ [Event.netAttempt, Event.logEndCase], setResp s (incTimes c), n + 1) := by
  rw [Do]
  rw [dif_neg (by simp; omega)]
  simp [hnet, hcls, endEvs_of_lt h]

/-- Step lemma: response whose status is not in the table stops silently. -/
theorem Do_unmapped (cls : Nat → Option Category) (net : Nat → AttemptResult)
    {c : Ctx} (n : Nat) {s : Nat} {body : Option (List Nat)} (h : c.times < c.MaxTimes)
    (hnet : net n = AttemptResult.ok s body) (hcls : cls s = none) :
    Do cls net c n =
      (startEvs c ++ [Event.netAttempt], setResp s (incTimes c), n + 1) := by
  rw [Do]
  rw [dif_neg (by simp; omega)]
  simp [hnet, hcls, endEvs_of_lt h]

/-- The whole retry chain started at context `c` performs at most
`c.MaxTimes - c.times` network attempts: each entry increments `times` and the
budget check stops the chain once past `MaxTimes`. -/
theorem Do_netCount_le (cls : Nat → Option Category) (net : Nat → AttemptResult) :
    ∀ (k : Nat) (c : Ctx) (n : Nat), c.MaxTimes - c.times ≤ k →
      netCount (Do cls net c n).1 ≤ c.MaxTimes - c.times := by
  intro k
  induction k with
  | zero =>
    intro c n hk
    rw [Do_budget cls net n (by omega)]
    simp [netCount_append, netCount]
  | succ k ih =>
    intro c n hk
    by_cases hb : c.MaxTimes ≤ c.times
    · rw [Do_budget cls net n hb]
      simp [netCount_append, netCount]
    · have hlt : c.times < c.MaxTimes := by omega
      rcases hnet : net n with _ | _ | ⟨s, body⟩
      · rcases hr : c.RetryFunc with _ | _
        · rw [Do_timeout_stop cls net n hlt hnet hr]
          simp [netCount_append, netCount]
          omega
        · rw [Do_timeout_retry cls net n hlt hnet hr]
          have hrec := ih (setTimeoutErr (incTimes c)) (n + 1) (by simp; omega)
          simp at hrec
          simp [netCount_append, netCount]
          omega
      · rw [Do_err cls net n hlt hnet]
        rcases hf : c.FailedFunc with _ | _ <;>
          simp [hf, netCount_append, netCount] <;> omega
      · rcases hcls : cls s with _ | cat
        · rw [Do_unmapped cls net n hlt hnet hcls]
          simp [netCount_append, netCount]
          omega
        · cases cat with
          | success =>
            rcases body with _ | bs
            · rw [Do_success_bodyErr cls net n hlt hnet hcls]
              simp [netCount_append, netCount]
              omega
            · rw [Do_success cls net n hlt hnet hcls]
              rcases hs : c.SucceedFunc with _ | _ <;>
                simp [hs, netCount_append, netCount] <;> omega
          | retry =>
            rw [Do_retryStatus cls net n hlt hnet hcls]
            have hrec := ih (setResp s (incTimes c)) (n + 1) (by simp; omega)
            simp at hrec
            rcases hr : c.RetryFunc with _ | _ <;>
              simp [hr, netCount_append, netCount] <;> omega
          | file =>
            rw [Do_file cls net n hlt hnet hcls]
            rcases hf : c.FailedFunc with _ | _ <;>
              simp [hf, netCount_append, netCount] <;> omega
          | startC =>
            rw [Do_startCase cls net n hlt hnet hcls]
            simp [netCount_append, netCount]
            omega
          | endC =>
            rw [Do_endCase cls net n hlt hnet hcls]
            simp [netCount_append, netCount]
            omega

/-- The body-transfer loop of `Upload` (src/context.go lines 288-305).  The
reader `c.Resp.Body.Read(buf)` is modelled as a list of read results, each a
chunk of at most `1024*100` bytes together with whether the read returned a
non-nil error; an exhausted list models a read returning `(0, io.EOF)`.
Returns the bytes written to the file and the byte counter `sum`.  The loop
writes `buf[:n]` and breaks when `err != nil || n == 0`, so the final chunk is
written before exiting; otherwise it writes the chunk and continues. -/
def transferLoop : List (List Nat × Bool) → List Nat × Nat
  | [] => ([], 0)
  | (chunk, e) :: rest =>
    if e = true ∨ chunk.length = 0 then (chunk, chunk.length)
    else
      (chunk ++ (transferLoop rest).1, chunk.length + (transferLoop rest).2)

/-- If every read before some position succeeds with a non-empty chunk and the
read at that position stops the loop (error or zero-length), `transferLoop`
writes exactly the chunks up to and including the stopping one. -/
theorem transferLoop_stop :
    ∀ (pre : List (List Nat × Bool)) (chunk : List Nat) (e : Bool)
      (rest : List (List Nat × Bool)),
      (∀ x ∈ pre, x.2 = false ∧ x.1.length ≠ 0) → (e = true ∨ chunk.length = 0) →
      transferLoop (pre ++ (chunk, e) :: rest) =
        ((pre.map Prod.fst).join ++ chunk, ((pre.map Prod.fst).join).length + chunk.length) := by
  intro pre
  induction pre with
  | nil =>
    intro chunk e rest _ hstop
    rcases hstop with he | hl
    · simp [transferLoop, he]
    · simp [transferLoop, hl]
  | cons x t ih =>
    intro chunk e rest hpre hstop
    obtain ⟨hx, ht⟩ := List.forall_mem_cons.mp hpre
    rcases x with ⟨xc, xe⟩
    have hrec := ih chunk e rest ht hstop
    simp only [List.cons_append, transferLoop]
    rw [if_neg]
    · simp only [List.append_eq] at *
      rw [hrec]
      simp
      omega
    · simp at hx
      simp [hx]

/-- `func (c *Context) Upload(filePath string) func()` (src/context.go lines
240-313), embedded like `Do`.  `chunks k` is the chunked view of the body of
the response received at stream position `k`; `createOk` is whether
`os.Create(filePath)` succeeds.  The fourth component is the content written
to the file (`none` when no transfer happened).  Note, from the source: no
`StartFunc`/`EndFunc` processing, no status-code dispatch on a received
response, and the timeout-retry path recurses into `Do`, not into `Upload`.
The nil-receiver guard lives in `uploadEntry`. -/
def Upload (cls : Nat → Option Category) (net : Nat → AttemptResult)
    (chunks : Nat → List (List Nat × Bool)) (createOk : Bool) (c : Ctx) (n : Nat) :
    List Event × Ctx × Nat × Option (List Nat) :=
  -- 重试验证: c.times++ ; if c.times > c.MaxTimes { log; return nil }
  if (incTimes c).MaxTimes < (incTimes c).times then
    ([Event.logBudget], incTimes c, n, none)
  else
    -- 执行请求: c.Resp, c.Err = c.Client.Do(c.Req)
    match net n with
    | AttemptResult.timeout =>
      -- 是否超时: if RetryFunc != nil { RetryFunc(c); return c.Do() } ; return nil
      if (setTimeoutErr (incTimes c)).RetryFunc = true then
        let r := Do cls net (setTimeoutErr (incTimes c)) (n + 1)
        ([Event.netAttempt, Event.retryEv] ++ r.1, r.2.1, r.2.2, none)
      else
        ([Event.netAttempt], setTimeoutErr (incTimes c), n + 1, none)
    | AttemptResult.err =>
      -- 其他错误: log; if FailedFunc != nil { FailedFunc(c) } ; return nil
      ([Event.netAttempt, Event.logErr] ++
        (if c.FailedFunc = true then [Event.failEv] else []),
       setOtherErr (incTimes c), n + 1, none)
    | AttemptResult.ok s _ =>
      -- f, err := os.Create(filePath); if err != nil { c.Err = err; return nil }
      if createOk = true then
        -- the transfer loop writes the body chunks to the file
        ([Event.netAttempt], setResp s (incTimes c), n + 1, some (transferLoop (chunks n)).1)
      else
        ([Event.netAttempt], { setResp s (incTimes c) with Err := some ErrKind.createFail },
          n + 1, none)

/-- The nil-receiver guard of `Upload`. -/
def uploadEntry (cls : Nat → Option Category) (net : Nat → AttemptResult)
    (chunks : Nat → List (List Nat × Bool)) (createOk : Bool)
    (c : Option Ctx) (n : Nat) : List Event × Option Ctx × Nat × Option (List Nat) :=
  match c with
  | none => ([Event.logNil], none, n, none)
  | some c =>
    let r := Upload cls net chunks createOk c n
    (r.1, some r.2.1, r.2.2.1, r.2.2.2)

/-- `rand.Int63n(m)` over a randomness oracle `r`: uniform in `[0, m)`;
panics (`none`) when `m ≤ 0`. -/
def int63n (r m : Nat) : Option Nat := if m = 0 then none else some (r % m)

/-- Result of `cookiePool.Get`: either a cookie or a Go panic. -/
inductive GetOutcome (α : Type) : Type where
  | panicked
  | got (a : α)
deriving DecidableEq, Repr

/-- `func (c *cookiePool) Add(cookie *http.Cookie)`: append under lock. -/
def cookiePool.Add {α : Type} (p : List α) (ck : α) : List α := p ++ [ck]

/-- `func (c *cookiePool) Get() *http.Cookie` (src/context.go lines 346-351):
`n := rand.Int63n(int64(len(c.cookie))); return c.cookie[n]`.  There is no
emptiness check: on an empty pool `rand.Int63n(0)` panics, and an
out-of-range index would panic as well. -/
def cookiePool.Get {α : Type} (p : List α) (r : Nat) : GetOutcome α :=
  match int63n r p.length with
  | none => GetOutcome.panicked
  | some i =>
    match p[i]? with
    | some a => GetOutcome.got a
    | none => GetOutcome.panicked

/- Concrete fixtures for witnesses and counterexamples. -/

/-- A context fresh out of construction: no hook bound, `MaxTimes = 3`. -/
def cPlain : Ctx :=
  { times := 0, MaxTimes := 3, StartFunc := false, SucceedFunc := false,
    FailedFunc := false, RetryFunc := false, EndFunc := false }

/-- Fresh context with only `FailedFunc` bound. -/
def cFailB : Ctx := { cPlain with FailedFunc := true }

/-- Fresh context with only `RetryFunc` bound. -/
def cRetryB : Ctx := { cPlain with RetryFunc := true }

/-- Fresh context with only `SucceedFunc` bound. -/
def cSuccB : Ctx := { cPlain with SucceedFunc := true }

/-- Fresh context with `MaxTimes = 1`, only `EndFunc` bound. -/
def cEnd1 : Ctx := { cPlain with MaxTimes := 1, EndFunc := true }

/-- Fresh context with `MaxTimes = 1`, only `RetryFunc` bound. -/
def cRetry1 : Ctx := { cPlain with MaxTimes := 1, RetryFunc := true }

/-- A context whose budget is already spent (`times = MaxTimes = 3`). -/
def cSpent : Ctx := { cPlain with times := 3 }

/-- Client oracle: every call times out awaiting headers. -/
def netTO : Nat → AttemptResult := fun _ => AttemptResult.timeout

/-- Client oracle: every call fails with a non-timeout transport error. -/
def netErr1 : Nat → AttemptResult := fun _ => AttemptResult.err

/-- Client oracle: every call yields status 200 with body "ok". -/
def net200 : Nat → AttemptResult := fun _ => AttemptResult.ok 200 (some [111, 107])

/-- Client oracle: every call yields status 200 but the body read fails. -/
def net200bad : Nat → AttemptResult := fun _ => AttemptResult.ok 200 none

/-- Client oracle: every call yields status 404 with an empty body. -/
def net404 : Nat → AttemptResult := fun _ => AttemptResult.ok 404 (some [])

/-- Client oracle: every call yields status 502 with an empty body. -/
def net502 : Nat → AttemptResult := fun _ => AttemptResult.ok 502 (some [])

/-- Body chunk oracle: the first read returns `(0, io.EOF)`. -/
def chunksNone : Nat → List (List Nat × Bool) := fun _ => []

/- ================== Claims ================== -/

/-- C1: for every context with `MaxTimes = k` and a fresh attempt counter,
`Do` performs at most `k` network attempts across the whole retry chain
(whatever the classifier and the network behave like); and on an entry whose
incremented counter exceeds `k` it stops at once with the budget-exceeded log,
performs no network call (`n` is returned unchanged), and invokes no hook
beyond the top-of-entry ones that already ran. -/
theorem C1_retry_budget (cls : Nat → Option Category) (net : Nat → AttemptResult)
    (c : Ctx) (n : Nat) :
    (c.times = 0 → netCount (Do cls net c n).1 ≤ c.MaxTimes) ∧
    (c.MaxTimes ≤ c.times →
      Do cls net c n = (startEvs c ++ endEvs c ++ [Event.logBudget], incTimes c, n)) := by
  constructor
  · intro h0
    have h := Do_netCount_le cls net c.MaxTimes c n (by omega)
    simp [h0] at h
    simpa [h0] using h
  · intro hb
    exact Do_budget cls net n hb

theorem C1_retry_budget_witness :
    (netCount (Do StatusCodeMap net502 cPlain 0).1 ≤ cPlain.MaxTimes) ∧
    (Do StatusCodeMap net502 cSpent 9 =
      (startEvs cSpent ++ endEvs cSpent ++ [Event.logBudget], incTimes cSpent, 9)) :=
  ⟨(C1_retry_budget StatusCodeMap net502 cPlain 0).1 rfl,
   (C1_retry_budget StatusCodeMap net502 cSpent 9).2 (by decide)⟩

set_option maxRecDepth 8000 in
/-- C2 counterexample: context with `MaxTimes = 1`, `EndFunc` bound, network
always answering a retry-classified status 502.  The claim says the end hook
runs before the final allowed attempt and that attempt is still performed;
in fact the end hook runs on the budget-exceeded entry, after the one and only
network attempt, and no attempt follows it. -/
theorem C2_end_hook_counterexample :
    (Do StatusCodeMap net502 cEnd1 0).1 =
      [Event.netAttempt, Event.logRetryStatus, Event.endEv, Event.logBudget] ∧
    netAfterEnd (Do StatusCodeMap net502 cEnd1 0).1 = 0 := by
  constructor <;>
    simp [Do, net502, StatusCodeMap, startEvs, endEvs, incTimes, setResp,
      cEnd1, cPlain, netAfterEnd, netCount]

/-- C2 amended: when the attempt counter equals `MaxTimes` at the top of an
entry and `EndFunc` is bound, `EndFunc` is invoked, but that entry then stops
with the budget-exceeded outcome and performs no network attempt (the end hook
runs after the final attempt, on the following entry, not before the final
attempt's network I/O). -/
theorem C2_end_hook_amended (cls : Nat → Option Category) (net : Nat → AttemptResult)
    (c : Ctx) (n : Nat) (h : c.times = c.MaxTimes) (he : c.EndFunc = true) :
    Do cls net c n = (startEvs c ++ [Event.endEv, Event.logBudget], incTimes c, n) := by
  rw [Do_budget cls net n (le_of_eq h.symm)]
  simp [endEvs, h, he]

theorem C2_end_hook_amended_witness :
    Do StatusCodeMap net502 { cEnd1 with times := 1 } 1 =
      (startEvs { cEnd1 with times := 1 } ++ [Event.endEv, Event.logBudget],
       incTimes { cEnd1 with times := 1 }, 1) :=
  C2_end_hook_amended StatusCodeMap net502 { cEnd1 with times := 1 } 1 (by decide) (by decide)

/-- C3: a received response whose status the table classifies into the failure
category (the source's `"file"` case, the spec's `fail`) makes `Do` invoke
`FailedFunc` when it is bound and then stop: no retry, no other post-response
hook for that attempt, and no further network call (`n + 1` is final). -/
theorem C3_fail_status (cls : Nat → Option Category) (net : Nat → AttemptResult)
    (c : Ctx) (n s : Nat) (body : Option (List Nat)) (h : c.times < c.MaxTimes)
    (hnet : net n = AttemptResult.ok s body) (hcls : cls s = some Category.file) :
    Do cls net c n =
      (startEvs c ++ [Event.netAttempt] ++
        (if c.FailedFunc = true then [Event.failEv] else []),
       setResp s (incTimes c), n + 1) :=
  Do_file cls net n h hnet hcls

theorem C3_fail_status_witness :
    Do StatusCodeMap net404 cFailB 0 =
      (startEvs cFailB ++ [Event.netAttempt] ++
        (if cFailB.FailedFunc = true then [Event.failEv] else []),
       setResp 404 (incTimes cFailB), 1) :=
  C3_fail_status StatusCodeMap net404 cFailB 0 404 (some []) (by decide) rfl rfl

/-- C4: the claim's empty-pool half fails on the code.  `cookiePool.Get` has
no emptiness check: on an empty pool `rand.Int63n(int64(0))` panics instead of
returning an explicit error.  (On a non-empty pool the code does return the
uniformly indexed cookie, as `C4` also states.) -/
theorem C4_empty_pool_get (r : Nat) :
    cookiePool.Get ([] : List Nat) r = GetOutcome.panicked := rfl

/-- C5 counterexample: a fresh context with `MaxTimes = 3`, no `RetryFunc`
bound, and a client that always times out awaiting headers.  The claim says
the retry recursion happens on every timeout whether or not a `RetryFunc` is
bound (which here would drive the chain through all 3 allowed attempts); in
fact `Do` returns after a single attempt with no recursion. -/
theorem C5_timeout_counterexample :
    Do StatusCodeMap netTO cPlain 0 =
      ([Event.netAttempt], setTimeoutErr (incTimes cPlain), 1) ∧
    netCount (Do StatusCodeMap netTO cPlain 0).1 = 1 := by
  constructor
  · simp [Do, netTO, startEvs, endEvs, incTimes, setTimeoutErr, cPlain]
  · simp [Do, netTO, startEvs, endEvs, incTimes, setTimeoutErr, cPlain, netCount]

/-- C5 amended: on a timeout transport error `Do` bypasses the status-code
classifier, but the retry recursion is conditional on the hook: when
`RetryFunc` is bound it is invoked and `Do` recurses; when it is not bound,
`Do` stops after that one attempt without retrying. -/
theorem C5_timeout_amended (cls : Nat → Option Category) (net : Nat → AttemptResult)
    (c : Ctx) (n : Nat) (h : c.times < c.MaxTimes)
    (hnet : net n = AttemptResult.timeout) :
    (c.RetryFunc = true →
      Do cls net c n =
        (startEvs c ++ [Event.netAttempt, Event.retryEv] ++
          (Do cls net (setTimeoutErr (incTimes c)) (n + 1)).1,
         (Do cls net (setTimeoutErr (incTimes c)) (n + 1)).2.1,
         (Do cls net (setTimeoutErr (incTimes c)) (n + 1)).2.2)) ∧
    (c.RetryFunc = false →
      Do cls net c n = (startEvs c ++ [Event.netAttempt], setTimeoutErr (incTimes c), n + 1)) :=
  ⟨fun hr => Do_timeout_retry cls net n h hnet hr,
   fun hr => Do_timeout_stop cls net n h hnet hr⟩

theorem C5_timeout_amended_witness :
    (Do StatusCodeMap netTO cRetryB 0 =
      (startEvs cRetryB ++ [Event.netAttempt, Event.retryEv] ++
        (Do StatusCodeMap netTO (setTimeoutErr (incTimes cRetryB)) 1).1,
       (Do StatusCodeMap netTO (setTimeoutErr (incTimes cRetryB)) 1).2.1,
       (Do StatusCodeMap netTO (setTimeoutErr (incTimes cRetryB)) 1).2.2)) ∧
    (Do StatusCodeMap netTO cPlain 0 =
      (startEvs cPlain ++ [Event.netAttempt], setTimeoutErr (incTimes cPlain), 1)) :=
  ⟨(C5_timeout_amended StatusCodeMap netTO cRetryB 0 (by decide) rfl).1 (by decide),
   (C5_timeout_amended StatusCodeMap netTO cPlain 0 (by decide) rfl).2 (by decide)⟩

/-- C6: a non-timeout transport error is terminal: the error is logged,
`FailedFunc` is invoked when bound, and `Do` stops — no retry on this path
(`n + 1` is the final stream position, the trace holds no `retryEv`). -/
theorem C6_transport_error_terminal (cls : Nat → Option Category)
    (net : Nat → AttemptResult) (c : Ctx) (n : Nat) (h : c.times < c.MaxTimes)
    (hnet : net n = AttemptResult.err) :
    Do cls net c n =
      (startEvs c ++ [Event.netAttempt, Event.logErr] ++
        (if c.FailedFunc = true then [Event.failEv] else []),
       setOtherErr (incTimes c), n + 1) :=
  Do_err cls net n h hnet

theorem C6_transport_error_terminal_witness :
    Do StatusCodeMap netErr1 cFailB 0 =
      (startEvs cFailB ++ [Event.netAttempt, Event.logErr] ++
        (if cFailB.FailedFunc = true then [Event.failEv] else []),
       setOtherErr (incTimes cFailB), 1) :=
  C6_transport_error_terminal StatusCodeMap netErr1 cFailB 0 (by decide) rfl

/-- C7: a response classified `success` with a successful body read stores the
entire body in `RespBody` (via `setBody bs`) and yields exactly one
`succeedEv` when `SucceedFunc` is bound — and no `retryEv`/`failEv` — then
stops; when the body read fails the outcome is terminal with no retry
(`n + 1` final, no hook invoked, only the logged read error). -/
theorem C7_success_exactly_once (cls : Nat → Option Category)
    (net : Nat → AttemptResult) (c : Ctx) (n s : Nat) (h : c.times < c.MaxTimes)
    (hcls : cls s = some Category.success) :
    (∀ bs : List Nat, net n = AttemptResult.ok s (some bs) →
      Do cls net c n =
        (startEvs c ++ [Event.netAttempt] ++
          (if c.SucceedFunc = true then [Event.succeedEv] else []),
         setBody bs (setResp s (incTimes c)), n + 1)) ∧
    (net n = AttemptResult.ok s none →
      Do cls net c n =
        (startEvs c ++ [Event.netAttempt, Event.logBodyErr],
         setResp s (incTimes c), n + 1)) :=
  ⟨fun _ hnet => Do_success cls net n h hnet hcls,
   fun hnet => Do_success_bodyErr cls net n h hnet hcls⟩

theorem C7_success_exactly_once_witness :
    (Do StatusCodeMap net200 cSuccB 0 =
      (startEvs cSuccB ++ [Event.netAttempt] ++
        (if cSuccB.SucceedFunc = true then [Event.succeedEv] else []),
       setBody [111, 107] (setResp 200 (incTimes cSuccB)), 1)) ∧
    (Do StatusCodeMap net200bad cSuccB 0 =
      (startEvs cSuccB ++ [Event.netAttempt, Event.logBodyErr],
       setResp 200 (incTimes cSuccB), 1)) :=
  ⟨(C7_success_exactly_once StatusCodeMap net200 cSuccB 0 200 (by decide) rfl).1 [111, 107] rfl,
   (C7_success_exactly_once StatusCodeMap net200bad cSuccB 0 200 (by decide) rfl).2 rfl⟩

/-- C8: a retry-classified response on the final allowed attempt
(`c.times + 1 = c.MaxTimes`) still invokes `RetryFunc`, and the recursive
`Do` call stops with the budget-exceeded outcome: the whole result ends at
stream position `n + 1`, so no further network attempt is performed. -/
theorem C8_retry_on_final_attempt (cls : Nat → Option Category)
    (net : Nat → AttemptResult) (c : Ctx) (n s : Nat) (body : Option (List Nat))
    (h : c.times + 1 = c.MaxTimes) (hnet : net n = AttemptResult.ok s body)
    (hcls : cls s = some Category.retry) (hr : c.RetryFunc = true) :
    Do cls net c n =
      (startEvs c ++ [Event.netAttempt, Event.logRetryStatus, Event.retryEv] ++
        (if c.EndFunc = true then [Event.endEv] else []) ++ [Event.logBudget],
       incTimes (setResp s (incTimes c)), n + 1) := by
  rw [Do_retryStatus cls net n (by omega) hnet hcls]
  rw [Do_budget cls net (n + 1) (by simp; omega)]
  have hs : startEvs (setResp s (incTimes c)) = [] := by
    unfold startEvs
    rw [if_neg]
    rintro ⟨h1, -⟩
    simp at h1
  have hend : endEvs (setResp s (incTimes c)) =
      (if c.EndFunc = true then [Event.endEv] else []) := by
    unfold endEvs
    simp [h]
  simp [hr, hs, hend]

theorem C8_retry_on_final_attempt_witness :
    Do StatusCodeMap net502 cRetry1 0 =
      (startEvs cRetry1 ++ [Event.netAttempt, Event.logRetryStatus, Event.retryEv] ++
        (if cRetry1.EndFunc = true then [Event.endEv] else []) ++ [Event.logBudget],
       incTimes (setResp 502 (incTimes cRetry1)), 1) :=
  C8_retry_on_final_attempt StatusCodeMap net502 cRetry1 0 502 (some [])
    (by decide) rfl rfl (by decide)

/-- C9 counterexample: the claim says `Upload` performs the same
status-code-table dispatch as `Do` on a received response.  On a response with
status 404 (classified into the failure category) and a context with
`FailedFunc` bound, `Do` invokes the hook while `Upload` invokes no hook at
all — it streams the body to the file regardless of the status code. -/
theorem C9_upload_no_dispatch_counterexample :
    Event.failEv ∈ (Do StatusCodeMap net404 cFailB 0).1 ∧
    Event.failEv ∉ (Upload StatusCodeMap net404 chunksNone true cFailB 0).1 := by
  constructor
  · simp [Do, net404, StatusCodeMap, startEvs, endEvs, incTimes, setResp, cFailB, cPlain]
  · simp [Upload, net404, incTimes, setResp, cFailB, cPlain]

/-- C9 amended: `Upload` shares `Do`'s budget check and transport-error
handling, except that its timeout-retry path recurses into `Do` (the buffering
variant) rather than into `Upload`; it performs no status-code dispatch —
every received response is streamed to the file sink in chunks, whatever its
status and whatever the classifier says; and its transfer loop stops at the
first read returning an error or zero bytes, writing that final chunk out
before exiting. -/
theorem C9_upload_amended (cls : Nat → Option Category) (net : Nat → AttemptResult)
    (chunks : Nat → List (List Nat × Bool)) (createOk : Bool) (c : Ctx) (n : Nat) :
    (c.MaxTimes ≤ c.times →
      Upload cls net chunks createOk c n = ([Event.logBudget], incTimes c, n, none)) ∧
    (c.times < c.MaxTimes → net n = AttemptResult.timeout → c.RetryFunc = true →
      Upload cls net chunks createOk c n =
        ([Event.netAttempt, Event.retryEv] ++
          (Do cls net (setTimeoutErr (incTimes c)) (n + 1)).1,
         (Do cls net (setTimeoutErr (incTimes c)) (n + 1)).2.1,
         (Do cls net (setTimeoutErr (incTimes c)) (n + 1)).2.2, none)) ∧
    (c.times < c.MaxTimes → net n = AttemptResult.timeout → c.RetryFunc = false →
      Upload cls net chunks createOk c n =
        ([Event.netAttempt], setTimeoutErr (incTimes c), n + 1, none)) ∧
    (c.times < c.MaxTimes → net n = AttemptResult.err →
      Upload cls net chunks createOk c n =
        ([Event.netAttempt, Event.logErr] ++
          (if c.FailedFunc = true then [Event.failEv] else []),
         setOtherErr (incTimes c), n + 1, none)) ∧
    (∀ s body, c.times < c.MaxTimes → net n = AttemptResult.ok s body → createOk = true →
      Upload cls net chunks createOk c n =
        ([Event.netAttempt], setResp s (incTimes c), n + 1,
         some (transferLoop (chunks n)).1)) ∧
    (∀ (pre : List (List Nat × Bool)) (chunk : List Nat) (e : Bool)
        (rest : List (List Nat × Bool)),
      (∀ x ∈ pre, x.2 = false ∧ x.1.length ≠ 0) → (e = true ∨ chunk.length = 0) →
      transferLoop (pre ++ (chunk, e) :: rest) =
        ((pre.map Prod.fst).join ++ chunk,
         ((pre.map Prod.fst).join).length + chunk.length)) := by
  refine ⟨?_, ?_, ?_, ?_, ?_, ?_⟩
  · intro hb
    unfold Upload
    rw [if_pos (by simp; omega)]
  · intro hlt hnet hr
    unfold Upload
    rw [if_neg (by simp; omega)]
    simp [hnet, hr]
  · intro hlt hnet hr
    unfold Upload
    rw [if_neg (by simp; omega)]
    simp [hnet, hr]
  · intro hlt hnet
    unfold Upload
    rw [if_neg (by simp; omega)]
    simp [hnet]
  · intro s body hlt hnet hco
    unfold Upload
    rw [if_neg (by simp; omega)]
    simp [hnet, hco]
  · exact transferLoop_stop

theorem C9_upload_amended_witness :
    (Upload StatusCodeMap netTO chunksNone true cSpent 4 =
      ([Event.logBudget], incTimes cSpent, 4, none)) ∧
    (Upload StatusCodeMap netTO chunksNone true cRetryB 0 =
      ([Event.netAttempt, Event.retryEv] ++
        (Do StatusCodeMap netTO (setTimeoutErr (incTimes cRetryB)) 1).1,
       (Do StatusCodeMap netTO (setTimeoutErr (incTimes cRetryB)) 1).2.1,
       (Do StatusCodeMap netTO (setTimeoutErr (incTimes cRetryB)) 1).2.2, none)) ∧
    (Upload StatusCodeMap netTO chunksNone true cPlain 0 =
      ([Event.netAttempt], setTimeoutErr (incTimes cPlain), 1, none)) ∧
    (Upload StatusCodeMap netErr1 chunksNone true cFailB 0 =
      ([Event.netAttempt, Event.logErr] ++
        (if cFailB.FailedFunc = true then [Event.failEv] else []),
       setOtherErr (incTimes cFailB), 1, none)) ∧
    (Upload StatusCodeMap net200 chunksNone true cPlain 0 =
      ([Event.netAttempt], setResp 200 (incTimes cPlain), 1,
       some (transferLoop (chunksNone 0)).1)) ∧
    (transferLoop ([([1, 2], false)] ++ ([3], true) :: []) =
      (([([1, 2], false)].map Prod.fst).join ++ [3],
       (([([1, 2], false)].map Prod.fst).join).length + [3].length)) :=
  ⟨(C9_upload_amended StatusCodeMap netTO chunksNone true cSpent 4).1 (by decide),
   (C9_upload_amended StatusCodeMap netTO chunksNone true cRetryB 0).2.1
     (by decide) rfl (by decide),
   (C9_upload_amended StatusCodeMap netTO chunksNone true cPlain 0).2.2.1
     (by decide) rfl (by decide),
   (C9_upload_amended StatusCodeMap netErr1 chunksNone true cFailB 0).2.2.2.1
     (by decide) rfl,
   (C9_upload_amended StatusCodeMap net200 chunksNone true cPlain 0).2.2.2.2.1
     200 (some [111, 107]) (by decide) rfl rfl,
   (C9_upload_amended StatusCodeMap net200 chunksNone true cPlain 0).2.2.2.2.2
     [([1, 2], false)] [3] true [] (by decide) (Or.inl rfl)⟩

/-- C10: calling `Do` or `Upload` on a nil `*Context` receiver logs and
returns nil: no hook is invoked, no network call is made, the stream position
is unchanged. -/
theorem C10_nil_receiver (cls : Nat → Option Category) (net : Nat → AttemptResult)
    (chunks : Nat → List (List Nat × Bool)) (createOk : Bool) (n : Nat) :
    doEntry cls net none n = ([Event.logNil], none, n) ∧
    uploadEntry cls net chunks createOk none n = ([Event.logNil], none, n, none) :=
  ⟨rfl, rfl⟩

end Gathertool
